import Mathlib

/-!
Verification development for the `minikerberos` credential-cache / keytab
codec (files `minikerberos/ccache.py`, `minikerberos/keytab.py`,
`minikerberos/utils.py`).

The Python source is shallowly embedded: byte streams are `List Nat`
(each element one byte), the `EOFReader.read` primitive (utils.py) becomes
`eread` returning `none` exactly when the Python code would raise
`EOFError`, and every `parse`/`to_bytes` method is translated field for
field.  `struct.pack` with big-endian unsigned formats becomes `pack16` /
`pack32` (the embedding truncates mod 2^width; the source raises for
out-of-range arguments, and every theorem that serializes restricts to
in-range values via the `WF` predicates).  Python exceptions that escape a
function are modelled by `Option`.
-/

namespace Minikerberos

abbrev Bytes := List Nat

/-- Big-endian fold of a byte list into a number: the value of
`struct.unpack` with formats such as `>H` and `>I` on the exact bytes. -/
def beFold (l : Bytes) : Nat := l.foldl (fun acc b => acc * 256 + b) 0

/-- `struct.pack` with format `>H` (big-endian u16). -/
def pack16 (n : Nat) : Bytes := [n / 256 % 256, n % 256]

/-- `struct.pack` with format `>I` (big-endian u32). -/
def pack32 (n : Nat) : Bytes :=
  [n / 16777216 % 256, n / 65536 % 256, n / 256 % 256, n % 256]

/-- `EOFReader.read n` (utils.py lines 112-117): returns exactly `n` bytes
or raises `EOFError` (here: `none`) when the underlying stream yields
fewer. -/
def eread (n : Nat) (s : Bytes) : Option (Bytes × Bytes) :=
  if n ≤ s.length then some (s.take n, s.drop n) else none

/-- Bytes that are actual byte values. -/
def byteOk (l : Bytes) : Prop := ∀ b ∈ l, b < 256

instance (l : Bytes) : Decidable (byteOk l) := by
  unfold byteOk; infer_instance

/-! ## CCACHE records (ccache.py) -/

/-- `CCACHEOctetString` (ccache.py lines 489-533). -/
structure CCACHEOctetString where
  length : Nat
  data : Bytes
deriving Repr, DecidableEq

namespace CCACHEOctetString

/-- `CCACHEOctetString.empty`. -/
def empty : CCACHEOctetString := ⟨0, []⟩

/-- `CCACHEOctetString.from_string`: `as_bytes` of the argument (modelled
directly as the resulting byte list), with `length` recomputed. -/
def fromString (d : Bytes) : CCACHEOctetString := ⟨d.length, d⟩

/-- `CCACHEOctetString.from_asn1`. -/
def fromAsn1 (d : Bytes) : CCACHEOctetString := ⟨d.length, d⟩

/-- `CCACHEOctetString.parse`: u32 length then that many data bytes. -/
def parse (s : Bytes) : Option (CCACHEOctetString × Bytes) := do
  let (lb, s) ← eread 4 s
  let len := beFold lb
  let (d, s) ← eread len s
  pure (⟨len, d⟩, s)

/-- `CCACHEOctetString.to_bytes`. -/
def toBytes (o : CCACHEOctetString) : Bytes := pack32 o.length ++ o.data

/-- The data-model invariant plus field-width bounds needed by
serialization. -/
def WF (o : CCACHEOctetString) : Prop :=
  o.length = o.data.length ∧ o.data.length < 4294967296 ∧ byteOk o.data

instance (o : CCACHEOctetString) : Decidable (WF o) := by
  unfold WF; infer_instance

end CCACHEOctetString

/-- `Header` (ccache.py lines 32-68). -/
structure Header where
  tag : Nat
  taglen : Nat
  tagdata : Bytes
deriving Repr, DecidableEq

namespace Header

/-- `Header.to_bytes`: note the source writes `len(self.tagdata)`, not the
stored `taglen`. -/
def toBytes (h : Header) : Bytes := pack16 h.tag ++ pack16 h.tagdata.length ++ h.tagdata

def WF (h : Header) : Prop :=
  h.taglen = h.tagdata.length ∧ h.tag < 65536 ∧ h.tagdata.length < 65536 ∧ byteOk h.tagdata

instance (h : Header) : Decidable (WF h) := by
  unfold WF; infer_instance

/-- One step of the `Header.parse` while loop (ccache.py lines 42-56).
The reader here is a plain `BytesIO` over the header block: a short
`read(4)` makes `struct.unpack` raise (none); the `tagdata` read may come
back short without error (`take` clamps).  The loop runs while
`reader.tell() < len(data)`. -/
def parseLoop : Nat → Bytes → Option (List Header)
  | 0, _ => none
  | fuel + 1, s =>
    if s.length = 0 then some []
    else if s.length < 4 then none
    else
      let tag := beFold (s.take 2)
      let taglen := beFold ((s.drop 2).take 2)
      let tagdata := (s.drop 4).take taglen
      match parseLoop fuel ((s.drop 4).drop taglen) with
      | none => none
      | some hs => some (⟨tag, taglen, tagdata⟩ :: hs)

/-- `Header.parse` on the full header block. -/
def parse (s : Bytes) : Option (List Header) := parseLoop (s.length + 1) s

end Header

/-- `DateTime`-free `Times` block (ccache.py lines 328-377). -/
structure Times where
  authtime : Nat
  starttime : Nat
  endtime : Nat
  renew_till : Nat
deriving Repr, DecidableEq

namespace Times

/-- `Times.parse`: `struct.unpack_from('>IIII', reader.read(16))`. -/
def parse (s : Bytes) : Option (Times × Bytes) := do
  let (b, s) ← eread 16 s
  pure (⟨beFold (b.take 4), beFold ((b.drop 4).take 4),
         beFold ((b.drop 8).take 4), beFold ((b.drop 12).take 4)⟩, s)

/-- `Times.to_bytes`. -/
def toBytes (t : Times) : Bytes :=
  pack32 t.authtime ++ pack32 t.starttime ++ pack32 t.endtime ++ pack32 t.renew_till

def WF (t : Times) : Prop :=
  t.authtime < 4294967296 ∧ t.starttime < 4294967296 ∧
  t.endtime < 4294967296 ∧ t.renew_till < 4294967296

instance (t : Times) : Decidable (WF t) := by
  unfold WF; infer_instance

end Times

/-- `Keyblock` (ccache.py lines 285-325). -/
structure Keyblock where
  keytype : Nat
  etype : Nat
  keylen : Nat
  keyvalue : Bytes
deriving Repr, DecidableEq

namespace Keyblock

/-- `Keyblock.parse`: `>HHH` then `keylen` bytes. -/
def parse (s : Bytes) : Option (Keyblock × Bytes) := do
  let (b, s) ← eread 6 s
  let kt := beFold (b.take 2)
  let et := beFold ((b.drop 2).take 2)
  let kl := beFold ((b.drop 4).take 2)
  let (kv, s) ← eread kl s
  pure (⟨kt, et, kl, kv⟩, s)

/-- `Keyblock.to_bytes`. -/
def toBytes (k : Keyblock) : Bytes :=
  pack16 k.keytype ++ pack16 k.etype ++ pack16 k.keylen ++ k.keyvalue

def WF (k : Keyblock) : Prop :=
  k.keytype < 65536 ∧ k.etype < 65536 ∧ k.keylen = k.keyvalue.length ∧
  k.keyvalue.length < 65536 ∧ byteOk k.keyvalue

instance (k : Keyblock) : Decidable (WF k) := by
  unfold WF; infer_instance

end Keyblock

/-- `Address` (ccache.py lines 380-399). -/
structure Address where
  addrtype : Nat
  addrdata : CCACHEOctetString
deriving Repr, DecidableEq

namespace Address

/-- `Address.parse`. -/
def parse (s : Bytes) : Option (Address × Bytes) := do
  let (b, s) ← eread 2 s
  let (d, s) ← CCACHEOctetString.parse s
  pure (⟨beFold b, d⟩, s)

/-- `Address.to_bytes`. -/
def toBytes (a : Address) : Bytes := pack16 a.addrtype ++ a.addrdata.toBytes

def WF (a : Address) : Prop := a.addrtype < 65536 ∧ a.addrdata.WF

instance (a : Address) : Decidable (WF a) := by
  unfold WF; infer_instance

end Address

/-- `Authdata` (ccache.py lines 402-421). -/
structure Authdata where
  authtype : Nat
  authdata : CCACHEOctetString
deriving Repr, DecidableEq

namespace Authdata

/-- `Authdata.parse`. -/
def parse (s : Bytes) : Option (Authdata × Bytes) := do
  let (b, s) ← eread 2 s
  let (d, s) ← CCACHEOctetString.parse s
  pure (⟨beFold b, d⟩, s)

/-- `Authdata.to_bytes`. -/
def toBytes (a : Authdata) : Bytes := pack16 a.authtype ++ a.authdata.toBytes

def WF (a : Authdata) : Prop := a.authtype < 65536 ∧ a.authdata.WF

instance (a : Authdata) : Decidable (WF a) := by
  unfold WF; infer_instance

end Authdata

/-- Run a parser a fixed number of times (the `for i in range(n)` loops
appending parsed records). -/
def parseCount {α : Type} (p : Bytes → Option (α × Bytes)) :
    Nat → Bytes → Option (List α × Bytes)
  | 0, s => some ([], s)
  | n + 1, s => do
    let (a, s) ← p s
    let (as, s) ← parseCount p n s
    pure (a :: as, s)

/-- `CCACHEPrincipal` (ccache.py lines 424-486). -/
structure CCACHEPrincipal where
  name_type : Nat
  num_components : Nat
  realm : CCACHEOctetString
  components : List CCACHEOctetString
deriving Repr, DecidableEq

namespace CCACHEPrincipal

/-- `CCACHEPrincipal.parse`: `>II` header, realm, then
`num_components` components. -/
def parse (s : Bytes) : Option (CCACHEPrincipal × Bytes) := do
  let (hdr, s) ← eread 8 s
  let nt := beFold (hdr.take 4)
  let nc := beFold (hdr.drop 4)
  let (realm, s) ← CCACHEOctetString.parse s
  let (comps, s) ← parseCount CCACHEOctetString.parse nc s
  pure (⟨nt, nc, realm, comps⟩, s)

/-- `CCACHEPrincipal.to_bytes`: note the source writes
`len(self.components)`, not the stored `num_components`. -/
def toBytes (p : CCACHEPrincipal) : Bytes :=
  pack32 p.name_type ++ pack32 p.components.length ++ p.realm.toBytes
    ++ (p.components.map CCACHEOctetString.toBytes).flatten

def WF (p : CCACHEPrincipal) : Prop :=
  p.name_type < 4294967296 ∧ p.num_components = p.components.length ∧
  p.components.length < 4294967296 ∧ p.realm.WF ∧ ∀ c ∈ p.components, c.WF

instance (p : CCACHEPrincipal) : Decidable (WF p) := by
  unfold WF; infer_instance

/-- `CCACHEPrincipal.dummy`. -/
def dummy : CCACHEPrincipal :=
  ⟨1, 1, CCACHEOctetString.fromString [107, 101, 114, 98, 105, 46, 99, 111, 114, 112],
   [CCACHEOctetString.fromString [107, 101, 114, 98, 105]]⟩

end CCACHEPrincipal

/-- `Credential` (ccache.py lines 91-282). -/
structure Credential where
  client : CCACHEPrincipal
  server : CCACHEPrincipal
  key : Keyblock
  time : Times
  is_skey : Nat
  tktflags : Nat
  num_address : Nat
  addrs : List Address
  num_authdata : Nat
  authdata : List Authdata
  ticket : CCACHEOctetString
  second_ticket : CCACHEOctetString
deriving Repr, DecidableEq

namespace Credential

/-- `Credential.parse` (ccache.py lines 232-251). -/
def parse (s : Bytes) : Option (Credential × Bytes) := do
  let (client, s) ← CCACHEPrincipal.parse s
  let (server, s) ← CCACHEPrincipal.parse s
  let (key, s) ← Keyblock.parse s
  let (time, s) ← Times.parse s
  let (b9, s) ← eread 9 s
  let is_skey := beFold (b9.take 1)
  let tktflags := beFold ((b9.drop 1).take 4)
  let num_address := beFold ((b9.drop 5).take 4)
  let (addrs, s) ← parseCount Address.parse num_address s
  let (b4, s) ← eread 4 s
  let num_authdata := beFold b4
  let (authdata, s) ← parseCount Authdata.parse num_authdata s
  let (ticket, s) ← CCACHEOctetString.parse s
  let (second_ticket, s) ← CCACHEOctetString.parse s
  pure (⟨client, server, key, time, is_skey, tktflags, num_address, addrs,
         num_authdata, authdata, ticket, second_ticket⟩, s)

/-- `Credential.to_bytes` (ccache.py lines 266-282): writes the stored
`num_address` / `num_authdata` counters, then iterates the lists. -/
def toBytes (c : Credential) : Bytes :=
  c.client.toBytes ++ c.server.toBytes ++ c.key.toBytes ++ c.time.toBytes
    ++ [c.is_skey % 256] ++ pack32 c.tktflags ++ pack32 c.num_address
    ++ (c.addrs.map Address.toBytes).flatten
    ++ pack32 c.num_authdata
    ++ (c.authdata.map Authdata.toBytes).flatten
    ++ c.ticket.toBytes ++ c.second_ticket.toBytes

def WF (c : Credential) : Prop :=
  c.client.WF ∧ c.server.WF ∧ c.key.WF ∧ c.time.WF ∧
  c.is_skey < 256 ∧ c.tktflags < 4294967296 ∧
  c.num_address = c.addrs.length ∧ c.addrs.length < 4294967296 ∧
  (∀ a ∈ c.addrs, a.WF) ∧
  c.num_authdata = c.authdata.length ∧ c.authdata.length < 4294967296 ∧
  (∀ a ∈ c.authdata, a.WF) ∧ c.ticket.WF ∧ c.second_ticket.WF

instance (c : Credential) : Decidable (WF c) := by
  unfold WF; infer_instance

end Credential

/-- `CCACHE` (ccache.py lines 536-807). -/
structure CCACHE where
  file_format_version : Nat
  headers : List Header
  primary_principal : CCACHEPrincipal
  credentials : List Credential
deriving Repr, DecidableEq

namespace CCACHE

/-- The credential-reading loop of `CCACHE.parse` (ccache.py lines
731-735): `Credential.parse` until it raises `EOFError`, which is caught
wherever inside the record it happens, ending the list.  Fuel is the
remaining stream length plus one; every successful `Credential.parse`
consumes at least one byte, so the fuel is never exhausted. -/
def parseCredList : Nat → Bytes → List Credential
  | 0, _ => []
  | fuel + 1, s =>
    match Credential.parse s with
    | none => []
    | some (c, r) => c :: parseCredList fuel r

/-- `CCACHE.parse` (ccache.py lines 721-737). -/
def parse (s : Bytes) : Option CCACHE := do
  let (vh, s) ← eread 4 s
  let version := beFold (vh.take 2)
  let hdr_size := beFold (vh.drop 2)
  let (hb, s) ← eread hdr_size s
  let headers ← Header.parse hb
  let (pp, s) ← CCACHEPrincipal.parse s
  pure ⟨version, headers, pp, parseCredList (s.length + 1) s⟩

/-- The serialized header block built by `CCACHE.to_bytes`. -/
def headersBytes (hs : List Header) : Bytes := (hs.map Header.toBytes).flatten

/-- `CCACHE.to_bytes` (ccache.py lines 739-753). -/
def toBytes (c : CCACHE) : Bytes :=
  pack16 c.file_format_version ++ pack16 (headersBytes c.headers).length
    ++ headersBytes c.headers ++ c.primary_principal.toBytes
    ++ (c.credentials.map Credential.toBytes).flatten

def WF (c : CCACHE) : Prop :=
  c.file_format_version < 65536 ∧ (headersBytes c.headers).length < 65536 ∧
  (∀ h ∈ c.headers, h.WF) ∧ c.primary_principal.WF ∧
  ∀ cr ∈ c.credentials, cr.WF

instance (c : CCACHE) : Decidable (WF c) := by
  unfold WF; infer_instance

end CCACHE

/-! ## Keytab records (keytab.py) -/

/-- `KeytabOctetString` (keytab.py lines 89-141). -/
structure KeytabOctetString where
  length : Nat
  data : Bytes
deriving Repr, DecidableEq

namespace KeytabOctetString

/-- `KeytabOctetString.empty`. -/
def empty : KeytabOctetString := ⟨0, []⟩

/-- `KeytabOctetString.from_string`. -/
def fromString (d : Bytes) : KeytabOctetString := ⟨d.length, d⟩

/-- `KeytabOctetString.from_asn1`: computes the length from `as_bytes`
of the argument and stores the argument itself (for byte input both are
the argument). -/
def fromAsn1 (d : Bytes) : KeytabOctetString := ⟨d.length, d⟩

/-- `KeytabOctetString.parse` (keytab.py lines 130-135): the source does
`o.length = struct.unpack('>H', reader.read(2))` with no tuple
destructuring, so `o.length` is a one-element tuple, and the following
`reader.read(o.length)` is then called with a tuple argument, which the
stream rejects (`TypeError`); a short `read(2)` instead makes
`struct.unpack` raise.  Either way the call never returns, so the
denotation is `none` on every input. -/
def parse (_ : Bytes) : Option (KeytabOctetString × Bytes) := none

/-- `KeytabOctetString.to_bytes`: writes `len(data)` as u16, then data. -/
def toBytes (o : KeytabOctetString) : Bytes := pack16 o.data.length ++ o.data

end KeytabOctetString

/-- `KeytabPrincipal` (keytab.py lines 17-86). -/
structure KeytabPrincipal where
  num_components : Nat
  name_type : Nat
  realm : KeytabOctetString
  components : List KeytabOctetString
deriving Repr, DecidableEq

namespace KeytabPrincipal

/-- `KeytabPrincipal.from_buffer` (keytab.py lines 66-76): component
count (u16), realm, components, then trailing name type (u32).  The
buffer is a `BytesIO`, so a short `read(2)` makes `struct.unpack` raise;
`eread` models both that and the octet-string failure as `none`. -/
def fromBuffer (s : Bytes) : Option (KeytabPrincipal × Bytes) := do
  let (ncb, s) ← eread 2 s
  let nc := beFold ncb
  let (realm, s) ← KeytabOctetString.parse s
  let (comps, s) ← parseCount KeytabOctetString.parse nc s
  let (ntb, s) ← eread 4 s
  pure (⟨nc, beFold ntb, realm, comps⟩, s)

/-- `KeytabPrincipal.to_bytes`. -/
def toBytes (p : KeytabPrincipal) : Bytes :=
  pack16 p.components.length ++ p.realm.toBytes
    ++ (p.components.map KeytabOctetString.toBytes).flatten ++ pack32 p.name_type

end KeytabPrincipal

/-- `KeytabEntry` (keytab.py lines 144-191). -/
structure KeytabEntry where
  principal : KeytabPrincipal
  timestamp : Nat
  key_version : Nat
  enctype : Nat
  key_length : Nat
  key_contents : Bytes
deriving Repr, DecidableEq

namespace KeytabEntry

/-- `KeytabEntry.from_buffer` (keytab.py lines 172-181). -/
def fromBuffer (s : Bytes) : Option (KeytabEntry × Bytes) := do
  let (p, s) ← KeytabPrincipal.fromBuffer s
  let (b, s) ← eread 9 s
  let ts := beFold (b.take 4)
  let kv := beFold ((b.drop 4).take 1)
  let et := beFold ((b.drop 5).take 2)
  let kl := beFold ((b.drop 7).take 2)
  let (kc, s) ← eread kl s
  pure (⟨p, ts, kv, et, kl, kc⟩, s)

/-- `KeytabEntry.to_bytes`. -/
def toBytes (e : KeytabEntry) : Bytes :=
  e.principal.toBytes ++ pack32 e.timestamp ++ [e.key_version % 256]
    ++ pack16 e.enctype ++ pack16 e.key_length ++ e.key_contents

end KeytabEntry

/-- `Keytab` (keytab.py lines 194-259). -/
structure Keytab where
  krb5 : Nat
  version : Nat
  entries : List KeytabEntry
deriving Repr, DecidableEq

namespace Keytab

/-- `Keytab.to_bytes` (keytab.py lines 204-218): the source calls
`struct.pack('BB', self.krb5.to_bytes, self.version.to_bytes)`, handing
`struct.pack` the attribute `to_bytes` of an int — which does not exist
in the Python 2 this module is written for (`print` statement at
ccache.py line 609), and is a bound method, not an int, in Python 3 —
so the call raises before any byte is produced (the loop would further
append raw `int` lengths to the list that `b''.join` consumes, another
`TypeError`).  The method therefore never returns: its denotation is
`none` for every receiver. -/
def toBytes (_ : Keytab) : Option Bytes := none

/-- The entry-reading loop of `Keytab.from_buffer` (keytab.py lines
231-249).  The size field is read with `struct.unpack('>I', ...)`, i.e.
UNSIGNED, so the stored Python value is the nonnegative `beFold`; the
`entry_size < 0` hole branch is kept exactly as in the source (where it
only increments the unused counter `i` and does not consume the hole
bytes) even though the unsigned read makes it unreachable.  `EOFError`
on the 4-byte size read is caught and treated as size 0; a short
`buffer.read(entry_size)` is outside that `try` and aborts the parse.
Fuel is the stream length plus one: every iteration consumes at least
the 4 size bytes. -/
def entriesLoop : Nat → Bytes → Option (List KeytabEntry)
  | 0, _ => none
  | fuel + 1, s =>
    match eread 4 s with
    | none => some []
    | some (szb, s') =>
      let entry_size : Int := (beFold szb : Nat)
      if entry_size = 0 then some []
      else if entry_size < 0 then entriesLoop fuel s'
      else do
        let (eb, s'') ← eread (beFold szb) s'
        let (e, _) ← KeytabEntry.fromBuffer eb
        let es ← entriesLoop fuel s''
        pure (e :: es)

/-- `Keytab.from_buffer` (keytab.py lines 224-251). -/
def fromBuffer (s : Bytes) : Option Keytab := do
  let (vb, s) ← eread 2 s
  let es ← entriesLoop (s.length + 1) s
  pure ⟨beFold (vb.take 1), beFold (vb.drop 1), es⟩

end Keytab

/-! ## Format bridge and hash extractor (ccache.py, utils.py)

The ASN.1 DER layer (`asn1crypto`, `minikerberos.asn1_structs`) is an
out-of-scope external dependency: a decoded Kerberos `Ticket` is
represented by its native fields that `to_hash` / `to_tgt` / `get_hashes`
actually touch, and `Ticket.load` on an opaque ticket blob is an abstract
`decode : Bytes → Option TicketNative` parameter (deterministic, as the
real decoder is). -/

/-- The native fields of a decoded Kerberos Ticket used by the bridge:
`enc-part.etype`, `sname.name-string`, `realm`, `enc-part.cipher`. -/
structure TicketNative where
  etype : Nat
  snameNameString : List String
  realm : String
  cipher : Bytes
deriving Repr, DecidableEq

/-- `EncryptionType.AES256_CTS_HMAC_SHA1_96.value`.  Modelled from the
spec: the constant lives in `minikerberos/constants.py`, which is not
among the provided sources; the spec and the claim both give
AES256-CTS-HMAC-SHA1-96 the standard value 18. -/
def AES256_CTS_HMAC_SHA1_96 : Nat := 18

/-- `krb5_pvno`.  Modelled from the spec: protocol constant from the
ASN.1 structure module (not among the provided sources); the Kerberos
protocol version number is 5. -/
def krb5_pvno : Nat := 5

/-- `MESSAGE_TYPE.KRB_AS_REP.value`.  Modelled from the spec: constant
from `minikerberos/constants.py` (not among the provided sources); the
standard AS-REP message type is 11. -/
def KRB_AS_REP : Nat := 11

/-- `MESSAGE_TYPE.KRB_CRED.value`.  Modelled from the spec: constant from
`minikerberos/constants.py` (not among the provided sources); the
standard KRB-CRED message type is 22. -/
def KRB_CRED : Nat := 22

/-- One lowercase hex digit. -/
def hexDigit (n : Nat) : Char :=
  if n < 10 then Char.ofNat (48 + n) else Char.ofNat (87 + n)

/-- `as_hex` (utils.py lines 91-97): Python 2 `data.encode('hex')`,
lowercase, two digits per byte. -/
def asHex (b : Bytes) : String :=
  String.mk ((b.map (fun n => [hexDigit (n / 16 % 16), hexDigit (n % 16)])).flatten)

/-- `as_str` of an octet string's data (latin-1 decode): one character
per byte value. -/
def octToString (o : CCACHEOctetString) : String :=
  String.mk (o.data.map Char.ofNat)

namespace CCACHEPrincipal

/-- `CCACHEPrincipal.to_string`: `'-'.join` of the component strings. -/
def joinDash : List (List Char) → List Char
  | [] => []
  | [x] => x
  | x :: xs => x ++ '-' :: joinDash xs

def toStringChars (p : CCACHEPrincipal) : List Char :=
  joinDash (p.components.map (fun c => c.data.map Char.ofNat))

def toString (p : CCACHEPrincipal) : String := String.mk p.toStringChars

/-- The dictionary part of `CCACHEPrincipal.to_asn1`. -/
structure Asn1 where
  nameType : Nat
  nameString : List String
deriving Repr, DecidableEq

def toAsn1 (p : CCACHEPrincipal) : Asn1 × String :=
  (⟨p.name_type, p.components.map octToString⟩, octToString p.realm)

end CCACHEPrincipal

namespace Credential

/-- `Credential.to_hash` (ccache.py lines 113-137), as a function of the
decoded ticket.  `none` models the uncaught `IndexError` when
`name-string` lacks the accessed component.  Python slice semantics:
`cipher[-12:]` is the last twelve bytes or the whole list when shorter,
`cipher[:-12]` everything before them; `[:16]` / `[16:]` clamp
likewise. -/
def toHashOf (t : TicketNative) : Option String :=
  let nameIdx := if t.snameNameString.length = 1 then 0 else 1
  match t.snameNameString[nameIdx]? with
  | none => none
  | some name =>
    if t.etype = AES256_CTS_HMAC_SHA1_96 then
      some ("$krb5tgs$" ++ toString t.etype ++ "$" ++ name ++ "$" ++ t.realm
        ++ "$" ++ asHex (t.cipher.drop (t.cipher.length - 12))
        ++ "$" ++ asHex (t.cipher.take (t.cipher.length - 12)))
    else
      some ("$krb5tgs$" ++ toString t.etype ++ "$*" ++ name ++ "$" ++ t.realm
        ++ "$spn*$" ++ asHex (t.cipher.take 16)
        ++ "$" ++ asHex (t.cipher.drop 16))

/-- The `EncryptedData({'etype': 1, 'cipher': b''})` stub and the AS-REP
shaped dictionary built by `Credential.to_tgt` (ccache.py lines 139-162). -/
structure TgtRep where
  pvno : Nat
  msgType : Nat
  crealm : String
  cname : CCACHEPrincipal.Asn1
  ticket : TicketNative
  encPartEtype : Nat
  encPartCipher : Bytes
deriving Repr, DecidableEq

/-- `EncryptionKey(self.key.to_asn1()).native`. -/
structure EncKeyNative where
  keytype : Nat
  keyvalue : Bytes
deriving Repr, DecidableEq

/-- `Credential.to_tgt`: `none` models the `MalformedTicket` raised when
`Ticket.load` fails on the stored ticket bytes.  Note the source takes
`crealm` from the SERVER principal's realm. -/
def toTgt (decode : Bytes → Option TicketNative) (c : Credential) :
    Option (TgtRep × EncKeyNative) :=
  match decode c.ticket.data with
  | none => none
  | some t =>
    some (⟨krb5_pvno, KRB_AS_REP, octToString c.server.realm,
           (CCACHEPrincipal.toAsn1 c.client).1, t, 1, []⟩,
          ⟨c.key.keytype, c.key.keyvalue⟩)

/-- The `krbcredinfo` dictionary assembled by `Credential.to_kirbi`
(ccache.py lines 170-186).  `datetime.datetime.fromtimestamp` is the
out-of-scope calendar conversion; each included timestamp is represented
by the epoch-seconds value the source passes to it. -/
structure KrbCredInfo where
  keytype : Nat
  keyvalue : Bytes
  prealm : String
  pname : CCACHEPrincipal.Asn1
  flags : Nat
  authtime : Option Nat
  starttime : Nat
  endtime : Nat
  renewTill : Option Nat
  srealm : String
  sname : CCACHEPrincipal.Asn1
deriving Repr, DecidableEq

/-- The ticket-info entry built by `Credential.to_kirbi`: `authtime` is
set only when `self.time.authtime != 0`, and `renew-till` only when
`self.time.renew_till != 0` — but, as in the source (ccache.py line 183),
the `renew-till` VALUE is `fromtimestamp(self.time.authtime)`. -/
def toKirbiInfo (c : Credential) : KrbCredInfo :=
  { keytype := c.key.keytype
    keyvalue := c.key.keyvalue
    prealm := octToString c.client.realm
    pname := (CCACHEPrincipal.toAsn1 c.client).1
    flags := c.tktflags
    authtime := if c.time.authtime ≠ 0 then some c.time.authtime else none
    starttime := c.time.starttime
    endtime := c.time.endtime
    renewTill := if c.time.renew_till ≠ 0 then some c.time.authtime else none
    srealm := octToString c.server.realm
    sname := (CCACHEPrincipal.toAsn1 c.server).1 }

/-- The kirbi filename built at ccache.py lines 165-168:
`'%s@%s_%s' % (client.to_string(), server.to_string(), sha1hex8)` where
`sha1hex8` abstracts `hashlib.sha1(ticket).hexdigest()[:8]` (out-of-scope
crypto). -/
def kirbiFilename (sha1hex8 : List Char) (c : Credential) : List Char :=
  c.client.toStringChars ++ '@' :: c.server.toStringChars ++ '_' :: sha1hex8

end Credential

/-- Python `str.replace('..', '!')`: left-to-right, non-overlapping. -/
def replaceDD : List Char → List Char
  | [] => []
  | [c] => [c]
  | a :: b :: rest =>
    if a = '.' ∧ b = '.' then '!' :: replaceDD rest
    else a :: replaceDD (b :: rest)

/-- Whether two consecutive dots occur anywhere (an occurrence of the
substring `".."`). -/
def hasDD : List Char → Bool
  | a :: b :: rest => if a = '.' ∧ b = '.' then true else hasDD (b :: rest)
  | _ => false

/-- The filename `CCACHE.to_kirbidir` uses for one credential
(ccache.py line 789): `'%s.kirbi' % filename.replace('..', '!')`. -/
def kirbiDirName (sha1hex8 : List Char) (c : Credential) : List Char :=
  replaceDD (c.kirbiFilename sha1hex8) ++ ('.' :: 'k' :: 'i' :: 'r' :: 'b' :: 'i' :: [])

/-- Python 2 ASCII lowercasing of one character (`str.lower` under the
default locale), as applied by `get_all_tgt`. -/
def lowerChar (c : Char) : Char :=
  if 'A' ≤ c ∧ c ≤ 'Z' then Char.ofNat (c.toNat + 32) else c

/-- Whether the first list starts the second. -/
def leadsWith : List Char → List Char → Bool
  | [], _ => true
  | _ :: _, [] => false
  | a :: as, b :: bs => (a == b) && leadsWith as bs

/-- Whether `needle` occurs contiguously inside the second list
(Python `str.find(needle) != -1`). -/
def containsSeq (needle : List Char) : List Char → Bool
  | [] => leadsWith needle []
  | l@(_ :: rest) => leadsWith needle l || containsSeq needle rest

/-- The test `cred.server.to_string().lower().find('krbtgt') != -1`
(ccache.py line 692): case-insensitive substring containment. -/
def serverHasKrbtgt (c : Credential) : Bool :=
  containsSeq ('k' :: 'r' :: 'b' :: 't' :: 'g' :: 't' :: [])
    (c.server.toStringChars.map lowerChar)

namespace CCACHE

/-- `CCACHE.get_all_tgt` (ccache.py lines 685-701): scan the credentials,
keep those whose server string contains `krbtgt`, convert each with
`to_tgt` and silently skip the ones raising `MalformedTicket`. -/
def getAllTgt (decode : Bytes → Option TicketNative) :
    List Credential → List (Credential.TgtRep × Credential.EncKeyNative)
  | [] => []
  | c :: cs =>
    if serverHasKrbtgt c then
      match c.toTgt decode with
      | some tup => tup :: getAllTgt decode cs
      | none => getAllTgt decode cs
    else getAllTgt decode cs

/-- `CCACHE.get_hashes` (ccache.py lines 703-719): per credential, try to
decode the ticket (`continue` on failure), filter on etype 23 unless
`all_hashes`, and collect `cred.to_hash()`.  The second decode inside
`to_hash` sees the same bytes, hence the same result; an `IndexError`
escaping `to_hash` aborts the whole call (`none`). -/
def getHashes (decode : Bytes → Option TicketNative)
    (creds : List Credential) (all_hashes : Bool) : Option (List String) :=
  match creds with
  | [] => some []
  | c :: cs =>
    match decode c.ticket.data with
    | none => getHashes decode cs all_hashes
    | some t =>
      if t.etype = 23 ∨ all_hashes = true then
        match Credential.toHashOf t with
        | none => none
        | some h => (getHashes decode cs all_hashes).map (h :: ·)
      else getHashes decode cs all_hashes

end CCACHE

/-! ## Concrete sample values used by witnesses and counterexamples -/

/-- Principal `alice@CORP`. -/
def samplePrincipal : CCACHEPrincipal :=
  ⟨1, 1, ⟨4, [67, 79, 82, 80]⟩, [⟨5, [97, 108, 105, 99, 101]⟩]⟩

def sampleKey : Keyblock := ⟨23, 0, 2, [1, 2]⟩

/-- Times with distinct `authtime` (100) and `renew_till` (200). -/
def sampleTimes : Times := ⟨100, 1, 2, 200⟩

def sampleCred : Credential :=
  ⟨samplePrincipal, samplePrincipal, sampleKey, sampleTimes, 0, 64, 0, [], 0, [],
   ⟨1, [48]⟩, ⟨0, []⟩⟩

def sampleHeader : Header := ⟨1, 8, [0, 0, 0, 0, 0, 0, 0, 0]⟩

def sampleCCACHE : CCACHE := ⟨1284, [sampleHeader], samplePrincipal, [sampleCred]⟩

/-- A 17-byte stream: a complete minimal ccache (version 0x0504, empty
header block, empty primary principal) followed by a single extra byte —
i.e. the stream ends one byte into a new Credential record. -/
def truncatedStream : Bytes :=
  [5, 4, 0, 0, 0, 0, 0, 0, 0, 0, 0, 0, 0, 0, 0, 0, 0]

/-- What `CCACHE.parse` produces on `truncatedStream`. -/
def parsedTrunc : CCACHE := ⟨1284, [], ⟨0, 0, ⟨0, []⟩, []⟩, []⟩

/-- One serialized keytab entry (22 bytes): principal with one component
(`a@A`, name type 1), timestamp 0, key version 1, enctype 23, one key
byte. -/
def keytabEntryBytes : Bytes :=
  [0, 1, 0, 1, 65, 0, 1, 97, 0, 0, 0, 1, 0, 0, 0, 0, 1, 0, 23, 0, 1, 170]

/-- The 3-record keytab stream of the claim: version bytes 5,2; a real
entry (size 22); a hole of size -8 (`FF FF FF F8` as a signed i32) with 8
filler bytes; a second real entry. -/
def keytabHoleStream : Bytes :=
  [5, 2] ++ [0, 0, 0, 22] ++ keytabEntryBytes
    ++ [255, 255, 255, 248] ++ [0, 0, 0, 0, 0, 0, 0, 0]
    ++ [0, 0, 0, 22] ++ keytabEntryBytes

/-- Claim-side hash-string formula, assembled from the claim's words:
AES256 (etype 18) takes the last 12 cipher bytes as checksum and all
preceding bytes as data; any other etype takes the first 16 bytes as
checksum and the rest as data, in the starred `spn` format. -/
def hashString (t : TicketNative) (name : String) : String :=
  if t.etype = 18 then
    "$krb5tgs$" ++ toString t.etype ++ "$" ++ name ++ "$" ++ t.realm
      ++ "$" ++ asHex (t.cipher.drop (t.cipher.length - 12))
      ++ "$" ++ asHex (t.cipher.take (t.cipher.length - 12))
  else
    "$krb5tgs$" ++ toString t.etype ++ "$*" ++ name ++ "$" ++ t.realm
      ++ "$spn*$" ++ asHex (t.cipher.take 16)
      ++ "$" ++ asHex (t.cipher.drop 16)

/-- An RC4 (etype 23) ticket with a two-component service principal and a
2-byte cipher. -/
def ticketRc4 : TicketNative := ⟨23, ["cifs", "srv1"], "CORP.COM", [170, 187]⟩

/-- An AES256 (etype 18) ticket with a single-component service principal
and a 13-byte cipher. -/
def ticketAes : TicketNative :=
  ⟨18, ["krbtgt"], "R", [0, 1, 2, 3, 4, 5, 6, 7, 8, 9, 10, 11, 12]⟩

/-- Tickets behind the three sample credentials: etypes 23, 23 and 18. -/
def ticketA : TicketNative := ⟨23, ["a"], "R", [17]⟩
def ticketB : TicketNative := ⟨23, ["b"], "R", [34]⟩
def ticketC : TicketNative := ⟨18, ["c"], "R", [51]⟩

/-- A concrete decoder: ticket blobs `[1]`, `[2]`, `[3]` decode to the
three tickets above; everything else fails to decode. -/
def decode3 : Bytes → Option TicketNative := fun b =>
  if b = [1] then some ticketA
  else if b = [2] then some ticketB
  else if b = [3] then some ticketC
  else none

def cred23a : Credential :=
  ⟨samplePrincipal, samplePrincipal, sampleKey, sampleTimes, 0, 64, 0, [], 0, [],
   ⟨1, [1]⟩, ⟨0, []⟩⟩

def cred23b : Credential :=
  ⟨samplePrincipal, samplePrincipal, sampleKey, sampleTimes, 0, 64, 0, [], 0, [],
   ⟨1, [2]⟩, ⟨0, []⟩⟩

def cred18 : Credential :=
  ⟨samplePrincipal, samplePrincipal, sampleKey, sampleTimes, 0, 64, 0, [], 0, [],
   ⟨1, [3]⟩, ⟨0, []⟩⟩

/-- Realm `CORP.COM` as an octet string. -/
def corpRealm : CCACHEOctetString := ⟨8, [67, 79, 82, 80, 46, 67, 79, 77]⟩

/-- Server principal whose joined string is `krbtgt-CORP.COM`. -/
def krbServer : CCACHEPrincipal :=
  ⟨2, 2, corpRealm,
   [⟨6, [107, 114, 98, 116, 103, 116]⟩, corpRealm]⟩

/-- Server principal whose joined string is `cifs-fileserver`. -/
def cifsServer : CCACHEPrincipal :=
  ⟨2, 2, corpRealm,
   [⟨4, [99, 105, 102, 115]⟩,
    ⟨10, [102, 105, 108, 101, 115, 101, 114, 118, 101, 114]⟩]⟩

def credKrb : Credential :=
  ⟨samplePrincipal, krbServer, sampleKey, sampleTimes, 0, 64, 0, [], 0, [],
   ⟨1, [1]⟩, ⟨0, []⟩⟩

def credCifs : Credential :=
  ⟨samplePrincipal, cifsServer, sampleKey, sampleTimes, 0, 64, 0, [], 0, [],
   ⟨1, [2]⟩, ⟨0, []⟩⟩

/-- A krbtgt credential whose ticket field holds non-Ticket bytes. -/
def credKrbBad : Credential :=
  ⟨samplePrincipal, krbServer, sampleKey, sampleTimes, 0, 64, 0, [], 0, [],
   ⟨1, [9]⟩, ⟨0, []⟩⟩

/-- Decoder for the C7 scenario: only blob `[1]` is a valid ticket. -/
def decode7 : Bytes → Option TicketNative := fun b =>
  if b = [1] then some ⟨23, ["krbtgt", "CORP.COM"], "CORP.COM", [170]⟩ else none

/-- The keytab this module constructs by default: format major 5,
minor 2, no entries. -/
def emptyKeytab : Keytab := ⟨5, 2, []⟩

/-- A client principal whose single name component is the string
`../../etc`. -/
def dotdotClient : CCACHEPrincipal :=
  ⟨1, 1, ⟨1, [82]⟩, [⟨9, [46, 46, 47, 46, 46, 47, 101, 116, 99]⟩]⟩

/-- A server principal whose single name component is `srv`. -/
def srvServer : CCACHEPrincipal :=
  ⟨1, 1, ⟨1, [82]⟩, [⟨3, [115, 114, 118]⟩]⟩

def cred9 : Credential :=
  ⟨dotdotClient, srvServer, sampleKey, sampleTimes, 0, 64, 0, [], 0, [],
   ⟨1, [48]⟩, ⟨0, []⟩⟩

/-! ## Byte-level lemmas -/

theorem pack16_length (n : Nat) : (pack16 n).length = 2 := rfl

theorem pack32_length (n : Nat) : (pack32 n).length = 4 := rfl

theorem beFold_pack16 {n : Nat} (h : n < 65536) : beFold (pack16 n) = n := by
  simp [beFold, pack16, List.foldl]
  omega

theorem beFold_pack32 {n : Nat} (h : n < 4294967296) : beFold (pack32 n) = n := by
  simp [beFold, pack32, List.foldl]
  omega

theorem take_append_len {l r : Bytes} {n : Nat} (h : l.length = n) :
    (l ++ r).take n = l := by
  subst h
  simp

theorem drop_append_len {l r : Bytes} {n : Nat} (h : l.length = n) :
    (l ++ r).drop n = r := by
  subst h
  simp

theorem eread_append (l r : Bytes) {n : Nat} (h : l.length = n) :
    eread n (l ++ r) = some (l, r) := by
  unfold eread
  rw [if_pos (by simp; omega), take_append_len h, drop_append_len h]

theorem eread_short {n : Nat} {s : Bytes} (h : s.length < n) : eread n s = none := by
  unfold eread
  rw [if_neg (by omega)]

/-! ## Round-trip lemmas: parsing a serialized record from the front of a
stream returns the record and the remaining stream. -/

theorem octetString_parse_toBytes (o : CCACHEOctetString) (hWF : o.WF)
    (rest : Bytes) : CCACHEOctetString.parse (o.toBytes ++ rest) = some (o, rest) := by
  obtain ⟨h1, h2, _⟩ := hWF
  unfold CCACHEOctetString.parse CCACHEOctetString.toBytes
  rw [List.append_assoc, eread_append _ _ (pack32_length o.length)]
  simp only [Option.bind_eq_bind, Option.some_bind, beFold_pack32 (h1 ▸ h2)]
  rw [eread_append _ _ h1.symm]
  simp only [Option.some_bind]
  rfl

theorem take_len_self {l : Bytes} {n : Nat} (h : l.length = n) : l.take n = l := by
  subst h
  exact List.take_length l

theorem keyblock_parse_toBytes (k : Keyblock) (hWF : k.WF) (rest : Bytes) :
    Keyblock.parse (k.toBytes ++ rest) = some (k, rest) := by
  obtain ⟨h1, h2, h3, h4, -⟩ := hWF
  unfold Keyblock.parse Keyblock.toBytes
  rw [show pack16 k.keytype ++ pack16 k.etype ++ pack16 k.keylen ++ k.keyvalue ++ rest
      = (pack16 k.keytype ++ (pack16 k.etype ++ pack16 k.keylen)) ++ (k.keyvalue ++ rest) by
        simp]
  rw [eread_append _ _ (by simp [pack16])]
  simp only [Option.bind_eq_bind, Option.some_bind]
  rw [take_append_len (pack16_length k.keytype),
      drop_append_len (pack16_length k.keytype),
      take_append_len (pack16_length k.etype),
      show (4 : Nat) = 2 + 2 from rfl, ← List.drop_drop,
      drop_append_len (pack16_length k.keytype),
      drop_append_len (pack16_length k.etype),
      take_len_self (pack16_length k.keylen),
      beFold_pack16 h1, beFold_pack16 h2, beFold_pack16 (h3 ▸ h4),
      eread_append _ _ h3.symm]
  rfl

theorem beFold_one (a : Nat) : beFold [a] = a := by
  simp [beFold]

theorem times_parse_toBytes (t : Times) (hWF : t.WF) (rest : Bytes) :
    Times.parse (t.toBytes ++ rest) = some (t, rest) := by
  obtain ⟨a, b, c, d⟩ := t
  obtain ⟨h1, h2, h3, h4⟩ := hWF
  unfold Times.parse Times.toBytes
  rw [eread_append _ _ (by simp [pack32])]
  simp only [Option.bind_eq_bind, Option.some_bind, Option.pure_def,
    Option.some.injEq, Prod.mk.injEq, Times.mk.injEq]
  simp only at h1 h2 h3 h4
  refine ⟨⟨?_, ?_, ?_, ?_⟩, trivial⟩ <;> · simp [pack32, beFold]; omega

theorem address_parse_toBytes (a : Address) (hWF : a.WF) (rest : Bytes) :
    Address.parse (a.toBytes ++ rest) = some (a, rest) := by
  obtain ⟨h1, h2⟩ := hWF
  unfold Address.parse Address.toBytes
  rw [List.append_assoc, eread_append _ _ (pack16_length a.addrtype)]
  simp only [Option.bind_eq_bind, Option.some_bind]
  rw [octetString_parse_toBytes _ h2, beFold_pack16 h1]
  rfl

theorem authdata_parse_toBytes (a : Authdata) (hWF : a.WF) (rest : Bytes) :
    Authdata.parse (a.toBytes ++ rest) = some (a, rest) := by
  obtain ⟨h1, h2⟩ := hWF
  unfold Authdata.parse Authdata.toBytes
  rw [List.append_assoc, eread_append _ _ (pack16_length a.authtype)]
  simp only [Option.bind_eq_bind, Option.some_bind]
  rw [octetString_parse_toBytes _ h2, beFold_pack16 h1]
  rfl

theorem parseCount_toBytes {α : Type} (p : Bytes → Option (α × Bytes))
    (tb : α → Bytes) (W : α → Prop)
    (hrt : ∀ x, W x → ∀ r, p (tb x ++ r) = some (x, r)) :
    ∀ (l : List α), (∀ x ∈ l, W x) → ∀ (rest : Bytes),
      parseCount p l.length ((l.map tb).flatten ++ rest) = some (l, rest) := by
  intro l
  induction l with
  | nil =>
    intro _ rest
    simp [parseCount]
  | cons a as ih =>
    intro hl rest
    simp only [List.map_cons, List.flatten_cons, List.length_cons, List.append_assoc]
    rw [parseCount, hrt a (hl a (by simp)) _]
    simp only [Option.bind_eq_bind, Option.some_bind]
    rw [ih (fun x hx => hl x (by simp [hx])) rest]
    rfl

theorem principal_parse_toBytes (p : CCACHEPrincipal) (hWF : p.WF)
    (rest : Bytes) : CCACHEPrincipal.parse (p.toBytes ++ rest) = some (p, rest) := by
  obtain ⟨nt, nc, realm, comps⟩ := p
  obtain ⟨h1, h2, h3, h4, h5⟩ := hWF
  simp only at h1 h2 h3 h4 h5
  subst h2
  unfold CCACHEPrincipal.parse CCACHEPrincipal.toBytes
  rw [show (pack32 nt ++ pack32 comps.length ++ CCACHEOctetString.toBytes realm
        ++ (comps.map CCACHEOctetString.toBytes).flatten) ++ rest
      = (pack32 nt ++ pack32 comps.length)
        ++ (CCACHEOctetString.toBytes realm
            ++ ((comps.map CCACHEOctetString.toBytes).flatten ++ rest)) by simp]
  rw [eread_append _ _ (by simp [pack32])]
  simp only [Option.bind_eq_bind, Option.some_bind]
  rw [take_append_len (pack32_length nt), drop_append_len (pack32_length nt),
      beFold_pack32 h1, beFold_pack32 h3,
      octetString_parse_toBytes _ h4]
  simp only [Option.some_bind]
  rw [parseCount_toBytes CCACHEOctetString.parse CCACHEOctetString.toBytes
      CCACHEOctetString.WF (fun x hx r => octetString_parse_toBytes x hx r)
      comps h5 rest]
  rfl

theorem eread9_block (a b c : Nat) (T : Bytes) :
    eread 9 ([a] ++ (pack32 b ++ (pack32 c ++ T)))
      = some ([a] ++ (pack32 b ++ pack32 c), T) := by
  rw [show [a] ++ (pack32 b ++ (pack32 c ++ T))
      = ([a] ++ (pack32 b ++ pack32 c)) ++ T by simp]
  exact eread_append _ _ (by simp [pack32])

theorem block9_skey (a b c : Nat) :
    beFold (([a] ++ (pack32 b ++ pack32 c)).take 1) = a := by
  simp [pack32, beFold]

theorem block9_tktflags (a b c : Nat) (h : b < 4294967296) :
    beFold ((([a] ++ (pack32 b ++ pack32 c)).drop 1).take 4) = b := by
  simp [pack32, beFold]
  omega

theorem block9_numaddr (a b c : Nat) (h : c < 4294967296) :
    beFold ((([a] ++ (pack32 b ++ pack32 c)).drop 5).take 4) = c := by
  simp [pack32, beFold]
  omega

theorem credential_parse_toBytes (c : Credential) (hWF : c.WF) (rest : Bytes) :
    Credential.parse (c.toBytes ++ rest) = some (c, rest) := by
  obtain ⟨client, server, key, time, is_skey, tktflags, num_address, addrs,
    num_authdata, authdata, ticket, second_ticket⟩ := c
  obtain ⟨hc, hs, hk, ht, hsk, htf, hna, hnalt, haddr, hnad, hnadlt, hauth,
    htk, hst⟩ := hWF
  simp only at hc hs hk ht hsk htf hna hnalt haddr hnad hnadlt hauth htk hst
  subst hna hnad
  unfold Credential.parse Credential.toBytes
  simp only [Nat.mod_eq_of_lt hsk, List.append_assoc]
  rw [principal_parse_toBytes client hc]
  simp only [Option.bind_eq_bind, Option.some_bind]
  rw [principal_parse_toBytes server hs]
  simp only [Option.some_bind]
  rw [keyblock_parse_toBytes key hk]
  simp only [Option.some_bind]
  rw [times_parse_toBytes time ht]
  simp only [Option.some_bind]
  rw [show [is_skey] ++ (pack32 tktflags ++ (pack32 addrs.length
        ++ ((addrs.map Address.toBytes).flatten ++ (pack32 authdata.length
        ++ ((authdata.map Authdata.toBytes).flatten
        ++ (CCACHEOctetString.toBytes ticket
        ++ (CCACHEOctetString.toBytes second_ticket ++ rest)))))))
      = [is_skey] ++ (pack32 tktflags ++ (pack32 addrs.length
        ++ (((addrs.map Address.toBytes).flatten ++ (pack32 authdata.length
        ++ ((authdata.map Authdata.toBytes).flatten
        ++ (CCACHEOctetString.toBytes ticket
        ++ (CCACHEOctetString.toBytes second_ticket ++ rest)))))))) from rfl]
  rw [eread9_block]
  simp only [Option.some_bind]
  rw [block9_skey, block9_tktflags _ _ _ htf, block9_numaddr _ _ _ hnalt]
  rw [parseCount_toBytes Address.parse Address.toBytes Address.WF
      (fun x hx r => address_parse_toBytes x hx r) addrs haddr]
  simp only [Option.some_bind]
  rw [eread_append _ _ (pack32_length authdata.length)]
  simp only [Option.some_bind]
  rw [beFold_pack32 hnadlt]
  rw [parseCount_toBytes Authdata.parse Authdata.toBytes Authdata.WF
      (fun x hx r => authdata_parse_toBytes x hx r) authdata hauth]
  simp only [Option.some_bind]
  rw [octetString_parse_toBytes ticket htk]
  simp only [Option.some_bind]
  rw [octetString_parse_toBytes second_ticket hst]
  rfl

theorem hdrblock_tag (a b : Nat) (X : Bytes) (h : a < 65536) :
    beFold (((pack16 a ++ pack16 b) ++ X).take 2) = a := by
  simp [pack16, beFold]
  omega

theorem hdrblock_len (a b : Nat) (X : Bytes) (h : b < 65536) :
    beFold ((((pack16 a ++ pack16 b) ++ X).drop 2).take 2) = b := by
  simp [pack16, beFold]
  omega

theorem hdrblock_drop4 (a b : Nat) (X : Bytes) :
    ((pack16 a ++ pack16 b) ++ X).drop 4 = X := by
  simp [pack16]

theorem header_parseLoop_toBytes (hs : List Header) (hWF : ∀ h ∈ hs, h.WF) :
    ∀ fuel, (CCACHE.headersBytes hs).length < fuel →
      Header.parseLoop fuel (CCACHE.headersBytes hs) = some hs := by
  induction hs with
  | nil =>
    intro fuel hf
    cases fuel with
    | zero => omega
    | succ f => simp [Header.parseLoop, CCACHE.headersBytes]
  | cons h tl ih =>
    intro fuel hf
    obtain ⟨tg, tln, td⟩ := h
    obtain ⟨h1, h2, h3, h4⟩ := hWF ⟨tg, tln, td⟩ (by simp)
    simp only at h1 h2 h3 h4
    subst h1
    cases fuel with
    | zero => omega
    | succ f =>
      have hsplit : CCACHE.headersBytes (⟨tg, td.length, td⟩ :: tl)
          = (pack16 tg ++ pack16 td.length) ++ (td ++ CCACHE.headersBytes tl) := by
        simp [CCACHE.headersBytes, Header.toBytes]
      rw [hsplit, Header.parseLoop]
      rw [if_neg (by simp [pack16]), if_neg (by simp [pack16])]
      simp only [hdrblock_tag tg td.length _ h2, hdrblock_len tg td.length _ h3,
        hdrblock_drop4, take_append_len rfl, drop_append_len rfl]
      rw [ih (fun x hx => hWF x (by simp [hx])) f
        (by simp only [hsplit] at hf; simp [pack16] at hf ⊢; omega)]

theorem header_parse_toBytes (hs : List Header) (hWF : ∀ h ∈ hs, h.WF) :
    Header.parse (CCACHE.headersBytes hs) = some hs :=
  header_parseLoop_toBytes hs hWF _ (Nat.lt_succ_self _)

theorem credential_toBytes_length_pos (c : Credential) : 0 < c.toBytes.length := by
  simp [Credential.toBytes, CCACHEPrincipal.toBytes, pack32]

theorem credential_parse_nil : Credential.parse [] = none := rfl

theorem ccache_parseCredList_toBytes (creds : List Credential) (extra : Bytes)
    (hWF : ∀ c ∈ creds, c.WF) (hextra : Credential.parse extra = none) :
    ∀ fuel, ((creds.map Credential.toBytes).flatten ++ extra).length < fuel →
      CCACHE.parseCredList fuel ((creds.map Credential.toBytes).flatten ++ extra) = creds := by
  induction creds with
  | nil =>
    intro fuel hf
    cases fuel with
    | zero => omega
    | succ f => simp [CCACHE.parseCredList, hextra]
  | cons c cs ih =>
    intro fuel hf
    cases fuel with
    | zero => omega
    | succ f =>
      rw [CCACHE.parseCredList]
      simp only [List.map_cons, List.flatten_cons, List.append_assoc] at hf ⊢
      rw [credential_parse_toBytes c (hWF c (by simp))]
      have hrest : ((cs.map Credential.toBytes).flatten ++ extra).length < f := by
        have := credential_toBytes_length_pos c
        simp [List.length_append] at hf ⊢
        omega
      show c :: CCACHE.parseCredList f ((cs.map Credential.toBytes).flatten ++ extra) = c :: cs
      rw [ih (fun x hx => hWF x (by simp [hx])) f hrest]

theorem ccache_parse_toBytes_append (x : CCACHE) (extra : Bytes) (hWF : x.WF)
    (hextra : Credential.parse extra = none) :
    CCACHE.parse (x.toBytes ++ extra) = some x := by
  obtain ⟨v, hdrs, pp, creds⟩ := x
  obtain ⟨h1, h2, h3, h4, h5⟩ := hWF
  simp only at h1 h2 h3 h4 h5
  unfold CCACHE.parse CCACHE.toBytes
  simp only [List.append_assoc]
  rw [show pack16 v ++ (pack16 (CCACHE.headersBytes hdrs).length ++ (CCACHE.headersBytes hdrs
        ++ (CCACHEPrincipal.toBytes pp ++ ((creds.map Credential.toBytes).flatten ++ extra))))
      = (pack16 v ++ pack16 (CCACHE.headersBytes hdrs).length) ++ (CCACHE.headersBytes hdrs
        ++ (CCACHEPrincipal.toBytes pp ++ ((creds.map Credential.toBytes).flatten ++ extra)))
      from by simp]
  rw [eread_append _ _ (by simp [pack16])]
  simp only [Option.bind_eq_bind, Option.some_bind]
  rw [take_append_len (pack16_length v), drop_append_len (pack16_length v),
      beFold_pack16 h1, beFold_pack16 h2, eread_append _ _ rfl]
  simp only [Option.some_bind]
  rw [header_parse_toBytes hdrs h3]
  simp only [Option.some_bind]
  rw [principal_parse_toBytes pp h4]
  simp only [Option.some_bind]
  rw [ccache_parseCredList_toBytes creds extra h5 hextra _ (Nat.lt_succ_self _)]
  rfl

/-! ## Sanitizer lemmas (to_kirbidir filename hardening) -/

theorem replaceDD_ne_dot (b : Char) (rest : List Char) (hb : b ≠ '.') :
    ∃ Y, replaceDD (b :: rest) = b :: Y := by
  cases rest with
  | nil => exact ⟨[], rfl⟩
  | cons r rs =>
    refine ⟨if b = '.' ∧ r = '.' then '!' :: replaceDD rs else replaceDD (r :: rs), ?_⟩
    rw [replaceDD, if_neg (fun h => hb h.1)]
    rw [if_neg (fun h => hb h.1)]

theorem hasDD_replaceDD : (l : List Char) → hasDD (replaceDD l) = false
  | [] => rfl
  | [_] => rfl
  | a :: b :: rest => by
    by_cases hab : a = '.' ∧ b = '.'
    · rw [show replaceDD (a :: b :: rest) = '!' :: replaceDD rest from by
        rw [replaceDD, if_pos hab]]
      have ih := hasDD_replaceDD rest
      cases hX : replaceDD rest with
      | nil => rfl
      | cons c X =>
        rw [hX] at ih
        rw [hasDD, if_neg (by simp)]
        exact ih
    · rw [show replaceDD (a :: b :: rest) = a :: replaceDD (b :: rest) from by
        rw [replaceDD, if_neg hab]]
      have ih := hasDD_replaceDD (b :: rest)
      by_cases hb : b = '.'
      · have ha : a ≠ '.' := fun ha => hab ⟨ha, hb⟩
        cases hX : replaceDD (b :: rest) with
        | nil => rfl
        | cons c X =>
          rw [hX] at ih
          rw [hasDD, if_neg (fun h => ha h.1)]
          exact ih
      · obtain ⟨Y, hY⟩ := replaceDD_ne_dot b rest hb
        rw [hY] at ih ⊢
        rw [hasDD, if_neg (fun h => hb h.2)]
        exact ih

/-! ## Scan lemmas (get_all_tgt / get_hashes) -/

theorem getAllTgt_append (decode : Bytes → Option TicketNative)
    (l1 l2 : List Credential) :
    CCACHE.getAllTgt decode (l1 ++ l2)
      = CCACHE.getAllTgt decode l1 ++ CCACHE.getAllTgt decode l2 := by
  induction l1 with
  | nil => rfl
  | cons c cs ih =>
    simp only [List.cons_append, CCACHE.getAllTgt]
    cases hsk : serverHasKrbtgt c with
    | false => simp [ih]
    | true =>
      cases htg : c.toTgt decode with
      | none => simp [ih]
      | some tup => simp [ih]

theorem toTgt_isSome (decode : Bytes → Option TicketNative)
    (c : Credential) : (c.toTgt decode).isSome = (decode c.ticket.data).isSome := by
  unfold Credential.toTgt
  cases decode c.ticket.data <;> rfl

theorem getAllTgt_length (decode : Bytes → Option TicketNative)
    (creds : List Credential) :
    (CCACHE.getAllTgt decode creds).length
      = creds.countP (fun c => serverHasKrbtgt c && (decode c.ticket.data).isSome) := by
  induction creds with
  | nil => rfl
  | cons c cs ih =>
    rw [CCACHE.getAllTgt, List.countP_cons]
    cases hsk : serverHasKrbtgt c with
    | false => simp [hsk, ih]
    | true =>
      cases hdec : decode c.ticket.data with
      | none =>
        have : c.toTgt decode = none := by unfold Credential.toTgt; rw [hdec]
        simp [this, hsk, hdec, ih]
      | some t =>
        have : c.toTgt decode
            = some (⟨krb5_pvno, KRB_AS_REP, octToString c.server.realm,
                (CCACHEPrincipal.toAsn1 c.client).1, t, 1, []⟩,
                ⟨c.key.keytype, c.key.keyvalue⟩) := by
          unfold Credential.toTgt
          rw [hdec]
        simp [this, hsk, hdec, ih]

theorem getHashes_skip (decode : Bytes → Option TicketNative)
    (bad : Credential) (cs : List Credential) (all : Bool)
    (hbad : decode bad.ticket.data = none) :
    CCACHE.getHashes decode (bad :: cs) all = CCACHE.getHashes decode cs all := by
  rw [CCACHE.getHashes, hbad]

theorem getHashes_eq (decode : Bytes → Option TicketNative)
    (creds : List Credential) (all : Bool)
    (hname : ∀ c ∈ creds,
      ((decode c.ticket.data).all fun t => (Credential.toHashOf t).isSome) = true) :
    CCACHE.getHashes decode creds all
      = some (creds.filterMap (fun c => (decode c.ticket.data).bind
          (fun t => if t.etype = 23 ∨ all = true then Credential.toHashOf t else none))) := by
  induction creds with
  | nil => rfl
  | cons c cs ih =>
    have hc := hname c (by simp)
    have ihr := ih (fun x hx => hname x (by simp [hx]))
    rw [CCACHE.getHashes, List.filterMap_cons]
    cases hdec : decode c.ticket.data with
    | none => simpa [hdec] using ihr
    | some t =>
      rw [hdec] at hc
      simp only [Option.all_some] at hc
      dsimp only
      simp only [Option.some_bind]
      by_cases he : t.etype = 23 ∨ all = true
      · rw [if_pos he, if_pos he]
        obtain ⟨h, hh⟩ := Option.isSome_iff_exists.mp hc
        rw [hh, ihr]
        rfl
      · rw [if_neg he, if_neg he]
        exact ihr

/-! ## Claim theorems -/

/-- Claim C1 (amended).  The credential list of `CCACHE.parse` ends on a
clean end-of-stream at a record boundary — and ALSO on a short read in the
middle of a Credential: `CCACHE.parse` catches `EOFError` wherever it is
raised inside `Credential.parse`, so a truncated trailing record is
silently discarded and the credentials parsed so far are returned; the
container parse does not fail.  Formally: for any well-formed cache `x`
and any tail `extra` on which `Credential.parse` raises (clean EOF `[]`
or a truncated record alike), parsing the serialization of `x` followed
by `extra` succeeds and returns exactly `x`. -/
theorem C1_credential_list_termination (x : CCACHE) (extra : Bytes)
    (hWF : x.WF) (hextra : Credential.parse extra = none) :
    CCACHE.parse (x.toBytes ++ extra) = some x :=
  ccache_parse_toBytes_append x extra hWF hextra

/-- Claim C1 counterexample.  `truncatedStream` ends one byte into a
Credential record (a short read inside the client principal's fixed-width
header), yet `CCACHE.parse` SUCCEEDS, returning the credentials parsed so
far (none) — it does not fail with a fatal truncation error as the claim
requires. -/
theorem C1_counterexample :
    CCACHE.parse truncatedStream = some parsedTrunc
      ∧ parsedTrunc.credentials = [] := by
  constructor
  · rfl
  · rfl

/-- Claim C1 witness: the amended theorem applied at a concrete cache and
a concrete one-byte truncated tail. -/
theorem C1_witness :
    sampleCCACHE.WF ∧ Credential.parse [9] = none
      ∧ CCACHE.parse (sampleCCACHE.toBytes ++ [9]) = some sampleCCACHE :=
  ⟨by decide, by decide,
   C1_credential_list_termination sampleCCACHE [9] (by decide) (by decide)⟩

/-- Claim C2 (amended).  `CCACHE.parse (CCACHE.to_bytes x)` reproduces `x`
field-for-field for every `x` satisfying the data-model invariants (every
stored length/count field equals the length of the corresponding data or
list, and every integer fits its field width) — including empty header and
credential lists.  The byte-identity direction holds for the byte strings
that are exact serializations of such values; it does NOT hold for every
accepted byte string (see the counterexample: accepted streams with a
truncated trailing credential re-serialize without the trailing bytes). -/
theorem C2_roundtrip :
    (∀ x : CCACHE, x.WF → CCACHE.parse x.toBytes = some x)
    ∧ (∀ b : Bytes, (∃ x : CCACHE, x.WF ∧ b = x.toBytes) →
        ∃ c, CCACHE.parse b = some c ∧ c.toBytes = b) := by
  constructor
  · intro x hWF
    have h := ccache_parse_toBytes_append x [] hWF credential_parse_nil
    simpa using h
  · rintro b ⟨x, hWF, rfl⟩
    refine ⟨x, ?_, rfl⟩
    have h := ccache_parse_toBytes_append x [] hWF credential_parse_nil
    simpa using h

/-- Claim C2 counterexample.  `truncatedStream` is accepted by
`CCACHE.parse`, but re-serializing the result drops the trailing
truncated-credential byte: `to_bytes (parse b) ≠ b`. -/
theorem C2_counterexample :
    CCACHE.parse truncatedStream = some parsedTrunc
      ∧ parsedTrunc.toBytes ≠ truncatedStream := by
  constructor
  · rfl
  · decide

/-- Claim C2 witness: parse-after-serialize at a concrete well-formed
cache with one header and one credential. -/
theorem C2_witness :
    sampleCCACHE.WF ∧ CCACHE.parse sampleCCACHE.toBytes = some sampleCCACHE :=
  ⟨by decide, C2_roundtrip.1 sampleCCACHE (by decide)⟩

/-- Claim C3 evaluation.  Parsing the entry/hole/entry keytab stream does
not yield the two real entries: `Keytab.from_buffer` raises.  The size
field is read with the UNSIGNED format `>I`, so the negative hole size
arrives as 4294967288 and the `entry_size < 0` skip branch can never run
(and, as written, it would only bump the unused counter `i` without
consuming the hole bytes); moreover `KeytabOctetString.parse` passes the
un-destructured `struct.unpack` tuple to `read`, so even the first real
entry fails to decode. -/
theorem C3_keytab_hole_bug : Keytab.fromBuffer keytabHoleStream = none := by
  rfl

/-- Claim C6 evaluation.  On a credential whose time block has
`authtime = 100`, `starttime = 1`, `endtime = 2`, `renew_till = 200`,
`to_kirbi` includes `authtime` (non-zero) with its own value and always
includes start/end — but it fills the included `renew-till` field from
AUTHTIME (100), not from the credential's stored `renew_till` (200). -/
theorem C6_renew_till_bug :
    (Credential.toKirbiInfo sampleCred).authtime = some 100
      ∧ (Credential.toKirbiInfo sampleCred).starttime = 1
      ∧ (Credential.toKirbiInfo sampleCred).endtime = 2
      ∧ sampleCred.time.renew_till = 200
      ∧ (Credential.toKirbiInfo sampleCred).renewTill = some 100 := by
  refine ⟨rfl, rfl, rfl, rfl, rfl⟩

/-- Claim C4.  For a decoded ticket, `Credential.to_hash` produces exactly
the claim's format, with the display name being the sole
service-principal name component when there is exactly one and the
component at index 1 otherwise. -/
theorem C4_to_hash_format (t : TicketNative) :
    (∀ n, t.snameNameString = [n] →
      Credential.toHashOf t = some (hashString t n))
    ∧ (∀ n0 n1 ns, t.snameNameString = n0 :: n1 :: ns →
      Credential.toHashOf t = some (hashString t n1)) := by
  constructor
  · intro n hn
    unfold Credential.toHashOf
    rw [hn]
    simp only [hashString, AES256_CTS_HMAC_SHA1_96, List.length_singleton, if_pos,
      List.getElem?_cons_zero]
    split <;> rfl
  · intro n0 n1 ns hn
    unfold Credential.toHashOf
    rw [hn]
    rw [if_neg (by simp)]
    simp only [hashString, AES256_CTS_HMAC_SHA1_96, List.getElem?_cons_succ,
      List.getElem?_cons_zero]
    split <;> rfl

/-- Claim C4 witness: the format theorem applied at one generic-format
and one AES-format ticket. -/
theorem C4_witness :
    Credential.toHashOf ticketRc4 = some "$krb5tgs$23$*srv1$CORP.COM$spn*$aabb$"
      ∧ Credential.toHashOf ticketAes
        = some "$krb5tgs$18$krbtgt$R$0102030405060708090a0b0c$00" := by
  constructor
  · rw [(C4_to_hash_format ticketRc4).2 "cifs" "srv1" [] rfl]
    rfl
  · rw [(C4_to_hash_format ticketAes).1 "krbtgt" rfl]
    rfl

/-- Claim C5.  `get_hashes` returns exactly one hash per credential whose
ticket decodes and (unless `all_hashes`) whose encryption type is 23:
the result is the in-order `filterMap` of the credential list by
decode-then-filter-then-hash, and its length is the number of credentials
whose ticket decodes with a passing encryption type.  (The hypothesis —
every decodable ticket in the cache yields a hash string — rules out the
`IndexError` a ticket with an empty `name-string` would raise.) -/
theorem C5_get_hashes (decode : Bytes → Option TicketNative)
    (creds : List Credential) (all : Bool)
    (hname : ∀ c ∈ creds,
      ((decode c.ticket.data).all fun t => (Credential.toHashOf t).isSome) = true) :
    CCACHE.getHashes decode creds all
      = some (creds.filterMap (fun c => (decode c.ticket.data).bind
          (fun t => if t.etype = 23 ∨ all = true then Credential.toHashOf t else none)))
    ∧ (creds.filterMap (fun c => (decode c.ticket.data).bind
          (fun t => if t.etype = 23 ∨ all = true then Credential.toHashOf t else none))).length
        = creds.countP
            (fun c => (decode c.ticket.data).any fun t => decide (t.etype = 23) || all) := by
  refine ⟨getHashes_eq decode creds all hname, ?_⟩
  induction creds with
  | nil => rfl
  | cons c cs ih =>
    have hc := hname c (by simp)
    have ihr := ih (fun x hx => hname x (by simp [hx]))
    rw [List.filterMap_cons, List.countP_cons]
    cases hdec : decode c.ticket.data with
    | none => simpa [hdec] using ihr
    | some t =>
      rw [hdec] at hc
      simp only [Option.all_some] at hc
      simp only [Option.some_bind, Option.any_some]
      by_cases he : t.etype = 23 ∨ all = true
      · rw [if_pos he]
        obtain ⟨h, hh⟩ := Option.isSome_iff_exists.mp hc
        rw [hh]
        simp only [List.length_cons, ihr]
        have : (decide (t.etype = 23) || all) = true := by
          rcases he with he | he
          · simp [he]
          · simp [he]
        rw [if_pos this]
      · rw [if_neg he]
        have : ¬((decide (t.etype = 23) || all) = true) := by
          simp only [Bool.or_eq_true, decide_eq_true_eq]
          tauto
        rw [if_neg this]
        simpa using ihr

/-- Claim C5 witness: on the three-credential cache with etypes
{23, 23, 18}, the `all_hashes = false` call returns exactly the two
generic-format strings and the `all_hashes = true` call returns three,
the etype-18 one in AES format. -/
theorem C5_witness :
    (∀ c ∈ [cred23a, cred23b, cred18],
      ((decode3 c.ticket.data).all fun t => (Credential.toHashOf t).isSome) = true)
    ∧ CCACHE.getHashes decode3 [cred23a, cred23b, cred18] false
        = some ["$krb5tgs$23$*a$R$spn*$11$", "$krb5tgs$23$*b$R$spn*$22$"]
    ∧ CCACHE.getHashes decode3 [cred23a, cred23b, cred18] true
        = some ["$krb5tgs$23$*a$R$spn*$11$", "$krb5tgs$23$*b$R$spn*$22$",
                "$krb5tgs$18$c$R$33$"] := by
  refine ⟨by decide, ?_, ?_⟩
  · rw [(C5_get_hashes decode3 [cred23a, cred23b, cred18] false (by decide)).1]
    rfl
  · rw [(C5_get_hashes decode3 [cred23a, cred23b, cred18] true (by decide)).1]
    rfl

/-- Claim C7.  In the scanning operations, a per-credential ticket decode
failure is swallowed: `get_all_tgt` drops the failing credential and keeps
scanning the rest, its result containing exactly one tuple per credential
whose server principal's joined string contains `krbtgt` case-insensitively
(`serverHasKrbtgt`) AND whose ticket decodes; `get_hashes` likewise skips a
credential whose ticket fails to decode. -/
theorem C7_scan_tolerance :
    (∀ (decode : Bytes → Option TicketNative) (pre post : List Credential)
        (bad : Credential), decode bad.ticket.data = none →
        CCACHE.getAllTgt decode (pre ++ bad :: post)
          = CCACHE.getAllTgt decode pre ++ CCACHE.getAllTgt decode post)
    ∧ (∀ (decode : Bytes → Option TicketNative) (creds : List Credential),
        (CCACHE.getAllTgt decode creds).length
          = creds.countP
              (fun c => serverHasKrbtgt c && (decode c.ticket.data).isSome))
    ∧ (∀ (decode : Bytes → Option TicketNative) (bad : Credential)
        (cs : List Credential) (all : Bool), decode bad.ticket.data = none →
        CCACHE.getHashes decode (bad :: cs) all = CCACHE.getHashes decode cs all) := by
  refine ⟨?_, getAllTgt_length,
    fun decode bad cs all h => getHashes_skip decode bad cs all h⟩
  intro decode pre post bad hbad
  rw [getAllTgt_append]
  have hskip : CCACHE.getAllTgt decode (bad :: post) = CCACHE.getAllTgt decode post := by
    rw [CCACHE.getAllTgt]
    have htg : bad.toTgt decode = none := by
      unfold Credential.toTgt
      rw [hbad]
    cases hsk : serverHasKrbtgt bad <;> simp [htg]
  rw [hskip]

/-- Claim C7 witness: a cache with one `krbtgt-CORP.COM` credential and
one `cifs-fileserver` credential yields exactly one TGT tuple, and
prepending a krbtgt credential with undecodable ticket bytes leaves the
result unchanged (skipped, no failure). -/
theorem C7_witness :
    decode7 credKrbBad.ticket.data = none
      ∧ (CCACHE.getAllTgt decode7 [credKrb, credCifs]).length = 1
      ∧ CCACHE.getAllTgt decode7 (credKrbBad :: [credKrb, credCifs])
          = CCACHE.getAllTgt decode7 [credKrb, credCifs] := by
  refine ⟨by decide, ?_, ?_⟩
  · rw [C7_scan_tolerance.2.1 decode7 [credKrb, credCifs]]
    decide
  · have h := C7_scan_tolerance.1 decode7 [] [credKrb, credCifs] credKrbBad (by decide)
    simpa using h

/-- Claim C8 evaluation.  `Keytab.to_bytes` never returns the claimed
byte string: it hands `struct.pack('BB', ...)` the attribute access
`self.krb5.to_bytes` / `self.version.to_bytes` — nonexistent on a
Python 2 int, a bound method rather than an int on Python 3 — so the
call raises on every receiver (and the module's own `__main__` round-trip
assertion could never pass).  Modelled as `none` for every keytab,
including the empty one. -/
theorem C8_to_bytes_raises : Keytab.toBytes emptyKeytab = none := rfl

/-- Claim C9.  Every kirbi filename written by `to_kirbidir` is the raw
`client@server_hash` name with `str.replace('..', '!')` applied before
`.kirbi` is appended; the sanitizer leaves no `..` occurrence in its
output (so principal-supplied `..` sequences cannot survive); and on the
claim's example — a client principal containing `../../etc` — the
produced filename is `!/!/etc@srv_deadbeef.kirbi`. -/
theorem C9_kirbidir_sanitize :
    (∀ (h8 : List Char) (c : Credential),
        kirbiDirName h8 c = replaceDD (c.kirbiFilename h8)
          ++ ('.' :: 'k' :: 'i' :: 'r' :: 'b' :: 'i' :: []))
    ∧ (∀ l : List Char, hasDD (replaceDD l) = false)
    ∧ kirbiDirName "deadbeef".toList cred9 = "!/!/etc@srv_deadbeef.kirbi".toList := by
  refine ⟨fun _ _ => rfl, hasDD_replaceDD, ?_⟩
  rfl

/-- Claim C10.  After any parse or construction of an octet string in
either format — `parse`, `from_string`, `from_asn1` or `empty` — the
stored length field equals the byte length of the stored data.  (The
keytab `parse` clause is vacuous: that method never returns, see
`KeytabOctetString.parse`.) -/
theorem C10_octetstring_invariant :
    (∀ (s : Bytes) (o : CCACHEOctetString) (r : Bytes),
        CCACHEOctetString.parse s = some (o, r) → o.length = o.data.length)
    ∧ (∀ d : Bytes, (CCACHEOctetString.fromString d).length
        = (CCACHEOctetString.fromString d).data.length)
    ∧ (∀ d : Bytes, (CCACHEOctetString.fromAsn1 d).length
        = (CCACHEOctetString.fromAsn1 d).data.length)
    ∧ CCACHEOctetString.empty.length = CCACHEOctetString.empty.data.length
    ∧ (∀ (s : Bytes) (o : KeytabOctetString) (r : Bytes),
        KeytabOctetString.parse s = some (o, r) → o.length = o.data.length)
    ∧ (∀ d : Bytes, (KeytabOctetString.fromString d).length
        = (KeytabOctetString.fromString d).data.length)
    ∧ (∀ d : Bytes, (KeytabOctetString.fromAsn1 d).length
        = (KeytabOctetString.fromAsn1 d).data.length)
    ∧ KeytabOctetString.empty.length = KeytabOctetString.empty.data.length := by
  refine ⟨?_, fun d => rfl, fun d => rfl, rfl, ?_, fun d => rfl, fun d => rfl, rfl⟩
  · intro s o r h
    unfold CCACHEOctetString.parse eread at h
    by_cases h1 : 4 ≤ s.length
    · rw [if_pos h1] at h
      simp only [Option.bind_eq_bind, Option.some_bind] at h
      by_cases h2 : beFold (s.take 4) ≤ (s.drop 4).length
      · rw [if_pos h2] at h
        simp only [Option.pure_def, Option.some_bind, Option.some.injEq,
          Prod.mk.injEq] at h
        obtain ⟨ho, -⟩ := h
        rw [← ho]
        simp only [List.length_take]
        omega
      · rw [if_neg h2] at h
        simp at h
    · rw [if_neg h1] at h
      simp at h
  · intro s o r h
    simp [KeytabOctetString.parse] at h

/-- Claim C10 witness: the parse clause applied at a concrete stream. -/
theorem C10_witness :
    CCACHEOctetString.parse [0, 0, 0, 1, 65] = some (⟨1, [65]⟩, [])
      ∧ (⟨1, [65]⟩ : CCACHEOctetString).length
        = (⟨1, [65]⟩ : CCACHEOctetString).data.length :=
  ⟨by decide,
   C10_octetstring_invariant.1 [0, 0, 0, 1, 65] ⟨1, [65]⟩ [] (by decide)⟩

end Minikerberos
